import Mathlib

/-!
Verification of the stream-bridge / chat-session core of the repository.

The embedding follows the TypeScript sources:
  * `src/lib/custom-fetch.ts`  (customTauriFetch: the stream bridge)
  * `src/hooks/useAIChat.ts`   (useAIChat: the chat session)
  * `src/lib/ai-provider.ts`   (handleChatRequest, provider selection)
  * `src/components/chat-pane.tsx` (handleSend: the submit entry point)

JavaScript values flowing through the code are modelled by the `Json`
inductive below.  Arrays and objects are encoded as cons-chains inside the
single inductive so that every function on them is plainly structurally
recursive and kernel-computable.  `JSON.parse` is modelled by a real,
executable parser (`jsonParse`) and `JSON.stringify` by `jsonStringify`.
Serialization of an envelope that is produced and immediately re-parsed by
modelled code on the other side of a boundary is modelled at the value
level.  Numbers are kept in the decimal form `m * 10 ^ e` in which they were
parsed, avoiding floating point; no claim depends on numeric semantics.
-/

/-- JavaScript/JSON values.  Arrays are `arrNil`/`arrCons` chains and objects
are `objNil`/`objCons` chains (field order preserved, later duplicate keys
shadow earlier ones as in `JSON.parse`). -/
inductive Json where
  | null : Json
  | bool (b : Bool) : Json
  | num (m : Int) (e : Int) : Json
  | str (s : String) : Json
  | arrNil : Json
  | arrCons (hd tl : Json) : Json
  | objNil : Json
  | objCons (k : String) (v tl : Json) : Json
deriving DecidableEq

/-- JavaScript truthiness of a value (`if (x)`). -/
def jsTruthy : Json → Bool
  | .null => false
  | .bool b => b
  | .num m _ => m != 0
  | .str s => s != ""
  | _ => true

/-- Property lookup `x.k`: meaningful only on objects; on a chain the later
(deeper) binding of a duplicate key wins, as in a JS object literal.
`none` models `undefined`. -/
def jsGet : Json → String → Option Json
  | .objCons k v tl, key =>
    match jsGet tl key with
    | some r => some r
    | none => if k = key then some v else none
  | _, _ => none

/-- Property lookup defaulting to `null` (`undefined` is modelled as `null`;
the distinction only reaches the opaque provider payload). -/
def jsGetD (v : Json) (key : String) : Json :=
  (jsGet v key).getD Json.null

/-- Is the value a JS array (`Array.isArray`)? -/
def Json.isArr : Json → Bool
  | .arrNil => true
  | .arrCons _ _ => true
  | _ => false

/-- Decimal rendering of the number `m * 10 ^ e`.  Faithful to JS on the
integers (`e = 0`) that actually occur; no claim inspects other numbers. -/
def numToString (m e : Int) : String :=
  if e = 0 then toString m else toString m ++ "e" ++ toString e

/-- JavaScript string coercion `String(x)` / `"" + x`. -/
def jsToString : Json → String
  | .null => "null"
  | .bool true => "true"
  | .bool false => "false"
  | .num m e => numToString m e
  | .str s => s
  | .arrNil => ""
  | .arrCons h t =>
    jsToString h ++ (match t with | .arrNil => "" | u => "," ++ jsToString u)
  | .objNil => "[object Object]"
  | .objCons _ _ _ => "[object Object]"

/-- Whitespace removed by `String.prototype.trim`. -/
def isJsSpace (c : Char) : Bool :=
  c.toNat = 9 || c.toNat = 10 || c.toNat = 11 || c.toNat = 12 || c.toNat = 13 ||
  c.toNat = 32 || c.toNat = 160 || c.toNat = 0x1680 ||
  (0x2000 ≤ c.toNat && c.toNat ≤ 0x200a) ||
  c.toNat = 0x2028 || c.toNat = 0x2029 || c.toNat = 0x202f ||
  c.toNat = 0x205f || c.toNat = 0x3000 || c.toNat = 0xfeff

/-- JavaScript `s.trim()`. -/
def jsTrim (s : String) : String :=
  String.mk (((s.data.dropWhile isJsSpace).reverse.dropWhile isJsSpace).reverse)

/-- JavaScript `s.includes(c)` for a single character. -/
def jsIncludes (s : String) (c : Char) : Bool :=
  s.data.any (· == c)

/-- JavaScript `s.indexOf(c)` (first occurrence, `-1` if absent). -/
def jsIndexOf (s : String) (c : Char) : Int :=
  match s.data.findIdx? (· == c) with
  | some i => (i : Int)
  | none => -1

/-- JavaScript `s.lastIndexOf(c)` (last occurrence, `-1` if absent). -/
def jsLastIndexOf (s : String) (c : Char) : Int :=
  match s.data.reverse.findIdx? (· == c) with
  | some i => ((s.data.length - 1 - i : Nat) : Int)
  | none => -1

/-- JavaScript `s.substring(a, b)`: indices are clamped to `[0, length]` and
swapped when `a > b`. -/
def jsSubstring (s : String) (a b : Int) : String :=
  let n := s.data.length
  let a2 := min (max a 0).toNat n
  let b2 := min (max b 0).toNat n
  String.mk ((s.data.drop (min a2 b2)).take (max a2 b2 - min a2 b2))

/-! ### A JSON parser modelling `JSON.parse`

The parser is executable and fuel-indexed; the fuel argument is structural,
so everything reduces by `rfl`/`decide` on concrete input.  The grammar is
that of `JSON.parse`: whitespace is space/tab/LF/CR, strings must escape
control characters, numbers reject leading zeros and bare exponents, and
trailing input is rejected. -/

/-- JSON grammar whitespace. -/
def isJsonWs (c : Char) : Bool :=
  c == ' ' || c == '\t' || c == '\n' || c == '\r'

/-- Drop leading JSON whitespace. -/
def skipWs (l : List Char) : List Char :=
  l.dropWhile isJsonWs

/-- Value of one hexadecimal digit. -/
def hexVal (c : Char) : Option Nat :=
  if 48 ≤ c.toNat && c.toNat ≤ 57 then some (c.toNat - 48)
  else if 97 ≤ c.toNat && c.toNat ≤ 102 then some (c.toNat - 87)
  else if 65 ≤ c.toNat && c.toNat ≤ 70 then some (c.toNat - 55)
  else none

/-- Single-character JSON string escapes. -/
def escSimple (e : Char) : Option Char :=
  if e = '"' then some '"'
  else if e = '\\' then some '\\'
  else if e = '/' then some '/'
  else if e = 'b' then some (Char.ofNat 8)
  else if e = 'f' then some (Char.ofNat 12)
  else if e = 'n' then some '\n'
  else if e = 'r' then some '\r'
  else if e = 't' then some '\t'
  else none

/-- Parse the body of a JSON string literal (after the opening quote),
returning the decoded characters and the input after the closing quote. -/
def parseStrBody : List Char → Option (List Char × List Char)
  | [] => none
  | c :: rest =>
    if c = '"' then some ([], rest)
    else if c = '\\' then
      match rest with
      | [] => none
      | e :: rest2 =>
        if e = 'u' then
          match rest2 with
          | h1 :: h2 :: h3 :: h4 :: rest3 =>
            match hexVal h1, hexVal h2, hexVal h3, hexVal h4 with
            | some a, some b, some c2, some d =>
              match parseStrBody rest3 with
              | some (cs, r) =>
                some (Char.ofNat (((a * 16 + b) * 16 + c2) * 16 + d) :: cs, r)
              | none => none
            | _, _, _, _ => none
          | _ => none
        else
          match escSimple e with
          | some ch =>
            match parseStrBody rest2 with
            | some (cs, r) => some (ch :: cs, r)
            | none => none
          | none => none
    else if c.toNat < 32 then none
    else
      match parseStrBody rest with
      | some (cs, r) => some (c :: cs, r)
      | none => none

/-- Numeric value of a digit string. -/
def natOfDigits (ds : List Char) : Nat :=
  ds.foldl (fun a c => a * 10 + (c.toNat - 48)) 0

/-- Parse a JSON number literal, producing `Json.num m e` with value
`m * 10 ^ e`. -/
def parseNumber (l : List Char) : Option (Json × List Char) :=
  let (neg, l1) := match l with
    | '-' :: r => (true, r)
    | _ => (false, l)
  let (ip, l2) := l1.span Char.isDigit
  if ip.isEmpty then none
  else if ip.head? = some '0' && ip.length != 1 then none
  else
    let (fp, l3) := match l2 with
      | '.' :: r => r.span Char.isDigit
      | _ => ([], l2)
    if (match l2 with | '.' :: _ => fp.isEmpty | _ => false) then none
    else
      let (hasExp, expNeg, ed, l4) := match l3 with
        | 'e' :: '+' :: r2 => let p := r2.span Char.isDigit; (true, false, p.1, p.2)
        | 'e' :: '-' :: r2 => let p := r2.span Char.isDigit; (true, true, p.1, p.2)
        | 'e' :: r2 => let p := r2.span Char.isDigit; (true, false, p.1, p.2)
        | 'E' :: '+' :: r2 => let p := r2.span Char.isDigit; (true, false, p.1, p.2)
        | 'E' :: '-' :: r2 => let p := r2.span Char.isDigit; (true, true, p.1, p.2)
        | 'E' :: r2 => let p := r2.span Char.isDigit; (true, false, p.1, p.2)
        | _ => (false, false, [], l3)
      if hasExp && ed.isEmpty then none
      else
        let mNat := natOfDigits (ip ++ fp)
        let m : Int := if neg then -(mNat : Int) else (mNat : Int)
        let e : Int := (if expNeg then -(natOfDigits ed : Int) else (natOfDigits ed : Int)) - fp.length
        some (Json.num m e, l4)

/-- One level of the mutually recursive JSON parser: a parser for values,
one for the elements of an array after `[`, and one for the fields of an
object after `{`. -/
structure JParsers where
  val : List Char → Option (Json × List Char)
  arrElems : List Char → Option (Json × List Char)
  objFields : List Char → Option (Json × List Char)

/-- Fuel-indexed JSON parser; `fuel` bounds the recursion depth and the
top-level wrapper always supplies enough. -/
def parseStep : Nat → JParsers
  | 0 => ⟨fun _ => none, fun _ => none, fun _ => none⟩
  | fuel + 1 =>
    let P := parseStep fuel
    { val := fun l =>
        match skipWs l with
        | [] => none
        | c :: rest =>
          if c = '"' then
            match parseStrBody rest with
            | some (cs, r) => some (.str (String.mk cs), r)
            | none => none
          else if c = '{' then
            match skipWs rest with
            | '}' :: r => some (.objNil, r)
            | l2 => P.objFields l2
          else if c = '[' then
            match skipWs rest with
            | ']' :: r => some (.arrNil, r)
            | l2 => P.arrElems l2
          else if c = 't' then
            match rest with
            | 'r' :: 'u' :: 'e' :: r => some (.bool true, r)
            | _ => none
          else if c = 'f' then
            match rest with
            | 'a' :: 'l' :: 's' :: 'e' :: r => some (.bool false, r)
            | _ => none
          else if c = 'n' then
            match rest with
            | 'u' :: 'l' :: 'l' :: r => some (.null, r)
            | _ => none
          else parseNumber (c :: rest)
      arrElems := fun l =>
        match P.val l with
        | some (v, r) =>
          match skipWs r with
          | ',' :: r2 =>
            match P.arrElems r2 with
            | some (tl, r3) => some (.arrCons v tl, r3)
            | none => none
          | ']' :: r2 => some (.arrCons v .arrNil, r2)
          | _ => none
        | none => none
      objFields := fun l =>
        match skipWs l with
        | '"' :: rest =>
          match parseStrBody rest with
          | some (k, r1) =>
            match skipWs r1 with
            | ':' :: r2 =>
              match P.val r2 with
              | some (v, r3) =>
                match skipWs r3 with
                | ',' :: r4 =>
                  match P.objFields r4 with
                  | some (tl, r5) => some (.objCons (String.mk k) v tl, r5)
                  | none => none
                | '}' :: r4 => some (.objCons (String.mk k) v .objNil, r4)
                | _ => none
              | none => none
            | _ => none
          | none => none
        | _ => none }

/-- Model of `JSON.parse`: parse the whole string as one JSON value; `none` models a
thrown `SyntaxError`. -/
def jsonParse (s : String) : Option Json :=
  match (parseStep (2 * s.data.length + 4)).val s.data with
  | some (v, r) => if skipWs r = [] then some v else none
  | none => none

/-! ### A JSON printer modelling `JSON.stringify` -/

/-- Hexadecimal digit character (lowercase, as `JSON.stringify` emits). -/
def hexDigitChar (n : Nat) : Char :=
  if n < 10 then Char.ofNat (48 + n) else Char.ofNat (87 + n)

/-- Escaping of one character inside a JSON string literal, exactly as
`JSON.stringify` does it. -/
def escapeChar (c : Char) : List Char :=
  if c = '"' then ['\\', '"']
  else if c = '\\' then ['\\', '\\']
  else if c = '\n' then ['\\', 'n']
  else if c = '\r' then ['\\', 'r']
  else if c = '\t' then ['\\', 't']
  else if c.toNat = 8 then ['\\', 'b']
  else if c.toNat = 12 then ['\\', 'f']
  else if c.toNat < 32 then
    ['\\', 'u', '0', '0', hexDigitChar (c.toNat / 16), hexDigitChar (c.toNat % 16)]
  else [c]

/-- A JSON string literal for `s`, quotes included. -/
def strLitChars (s : String) : List Char :=
  '"' :: (s.data.flatMap escapeChar ++ ['"'])

/-- Characters of `JSON.stringify x`.  The flag selects rendering a whole
value (`false`) or the tail of an array/object chain (`true`, which prefixes
a comma). -/
def stringifyChars : Bool → Json → List Char
  | _, .null => ['n', 'u', 'l', 'l']
  | _, .bool true => ['t', 'r', 'u', 'e']
  | _, .bool false => ['f', 'a', 'l', 's', 'e']
  | _, .num m e => (numToString m e).data
  | _, .str s => strLitChars s
  | false, .arrNil => ['[', ']']
  | false, .arrCons h t => '[' :: (stringifyChars false h ++ stringifyChars true t ++ [']'])
  | true, .arrNil => []
  | true, .arrCons h t => ',' :: (stringifyChars false h ++ stringifyChars true t)
  | false, .objNil => ['{', '}']
  | false, .objCons k v t =>
    '{' :: (strLitChars k ++ ':' :: stringifyChars false v ++ stringifyChars true t ++ ['}'])
  | true, .objNil => []
  | true, .objCons k v t =>
    ',' :: (strLitChars k ++ ':' :: stringifyChars false v ++ stringifyChars true t)

/-- Model of `JSON.stringify`. -/
def jsonStringify (v : Json) : String :=
  String.mk (stringifyChars false v)

/-! ### Chunk normalization (custom-fetch.ts, chunk event handler) -/

/-- Normalization of one raw chunk payload, from the `EVENT_CHUNK` handler in
`customTauriFetch` (custom-fetch.ts lines 66-102): when the text contains
both a `:` and a `\n`, the substring between the first `:` and the last
`\n` is trimmed and `JSON.parse`d, the raw (trimmed) substring being kept on
parse failure; otherwise the whole text is the content. -/
def normalizeChunk (chunkStr : String) : Json :=
  if jsIncludes chunkStr ':' && jsIncludes chunkStr '\n' then
    let colonIndex := jsIndexOf chunkStr ':'
    let newlineIndex := jsLastIndexOf chunkStr '\n'
    if colonIndex != -1 && newlineIndex != -1 then
      let extracted := jsTrim (jsSubstring chunkStr (colonIndex + 1) newlineIndex)
      match jsonParse extracted with
      | some parsed => parsed
      | none => Json.str extracted
    else Json.str chunkStr
  else Json.str chunkStr

/-- The fragment enqueued for one chunk event: nothing when the payload is
absent or falsy (`if (event.payload)`), otherwise the wrapper object
`{content: <normalized>}` (the `JSON.stringify`/decode/`JSON.parse` transport
of this envelope between the two modelled endpoints is modelled at value
level). -/
def chunkFragment : Option String → Option Json
  | none => none
  | some s =>
    if s = "" then none
    else some (Json.objCons "content" (normalizeChunk s) Json.objNil)

/-! ### The stream bridge as a state machine (custom-fetch.ts)

`customTauriFetch` registers three listeners (chunk, error, end), stores
their unlisten functions in the module-level `listeners` map under a fresh
`requestId`, and fires the `stream_api_request` command once.  The handlers
and the stream `cancel()` callback are modelled as a step function on an
explicit state, under the single-threaded cooperative scheduling the code
relies on (each handler, including its `Promise.all(...).then` cleanup, runs
to completion between suspension points).  Tauri unlisten functions and
`Map.delete` are idempotent and never throw; `controller.error` is a no-op
on a non-readable stream; `controller.close` throws on a non-readable
stream; `controller.enqueue` throws on a non-readable stream but the chunk
handler catches that error. -/

/-- Status of the `ReadableStream` controller. -/
inductive StreamStatus where
  | readable : StreamStatus
  | closed : StreamStatus
  | errored (msg : String) : StreamStatus
deriving DecidableEq

/-- State of one `customTauriFetch` invocation: whether the three event
subscriptions are live, whether the `requestId` is still in the `listeners`
map, the controller status, how many teardown passes have run, and how many
`stream_api_request` commands have been issued to the host. -/
structure BridgeState where
  live : Bool
  inMap : Bool
  status : StreamStatus
  teardowns : Nat
  invokes : Nat
deriving DecidableEq

/-- State right after `customTauriFetch` set the stream up: listeners
registered, map entry stored, stream readable, the one outbound command
issued. -/
def openBridgeState : BridgeState :=
  ⟨true, true, .readable, 0, 1⟩

/-- Events that can reach one stream: a chunk event, the end event, an error
event, rejection of the `stream_api_request` promise, and consumer
cancellation. -/
inductive BridgeEv where
  | chunk (payload : Option String) : BridgeEv
  | endEv : BridgeEv
  | errorEv (payload : Option String) : BridgeEv
  | reject (err : String) : BridgeEv
  | cancel : BridgeEv
deriving DecidableEq

/-- Message attached to an error event:
`event.payload ? String(event.payload) : "Unknown error from AI provider"` (note the
source uses the literal text Unknown error from AI provider). -/
def errorEventMessage : Option String → String
  | some m => if m ≠ "" then m else "Unknown error from AI provider"
  | none => "Unknown error from AI provider"

/-- Events other than chunk events are terminal: each tears the listener set
down when it is still up. -/
def terminalEv : BridgeEv → Bool
  | .chunk _ => false
  | _ => true

/-- One step of the bridge: the state after the event, the fragments
enqueued onto the stream, and whether an exception escaped the handler. -/
def step (s : BridgeState) : BridgeEv → BridgeState × List Json × Bool
  | .chunk p =>
    if s.live then
      match chunkFragment p with
      | some f => (s, if s.status = .readable then [f] else [], false)
      | none => (s, [], false)
    else (s, [], false)
  | .endEv =>
    if s.live then
      if s.status = .readable then
        ({ s with live := false, inMap := false, status := .closed,
                   teardowns := s.teardowns + 1 }, [], false)
      else (s, [], true)
    else (s, [], false)
  | .errorEv p =>
    if s.live then
      ({ s with live := false, inMap := false,
                 status := if s.status = .readable then .errored (errorEventMessage p) else s.status,
                 teardowns := s.teardowns + 1 }, [], false)
    else (s, [], false)
  | .reject err =>
    ({ s with live := false, inMap := false,
               status := if s.status = .readable then .errored err else s.status,
               teardowns := s.teardowns + 1 }, [], false)
  | .cancel =>
    if s.inMap then
      ({ s with live := false, inMap := false, teardowns := s.teardowns + 1 }, [], false)
    else (s, [], false)

/-- Result of running a sequence of events through the bridge. -/
structure RunResult where
  state : BridgeState
  frags : List Json
  threw : Bool
deriving DecidableEq

/-- Run a sequence of events through the bridge, collecting the enqueued
fragments in order and whether any handler threw. -/
def runBridge (s : BridgeState) : List BridgeEv → RunResult
  | [] => ⟨s, [], false⟩
  | e :: evs =>
    let r1 := step s e
    let r := runBridge r1.1 evs
    ⟨r.state, r1.2.1 ++ r.frags, r1.2.2 || r.threw⟩

/-! ### Host behaviour and the response object -/

/-- Terminal event the host sends for a stream. -/
inductive HostTerm where
  | endOfStream : HostTerm
  | errorEv (payload : Option String) : HostTerm
deriving DecidableEq

/-- Behaviour of the host for one `stream_api_request`: the command promise
rejects, or a sequence of chunk events arrives followed by a terminal
event. -/
inductive HostBehavior where
  | reject (err : String) : HostBehavior
  | events (chunks : List (Option String)) (term : HostTerm) : HostBehavior
deriving DecidableEq

/-- The bridge events produced by a host behaviour. -/
def eventsOf : HostBehavior → List BridgeEv
  | .reject e => [.reject e]
  | .events cs t =>
    cs.map BridgeEv.chunk ++
      [match t with
       | .endOfStream => BridgeEv.endEv
       | .errorEv p => BridgeEv.errorEv p]

/-- Run of the bridge against a host behaviour, from the open state. -/
def bridgeResult (h : HostBehavior) : RunResult :=
  runBridge openBridgeState (eventsOf h)

/-- How a consumer reading the stream to the end sees it finish. -/
inductive StreamOutcome where
  | done : StreamOutcome
  | errored (msg : String) : StreamOutcome
deriving DecidableEq

/-- The outcome of reading the bridge stream produced by a host behaviour. -/
def bridgeOutcome (h : HostBehavior) : StreamOutcome :=
  match (bridgeResult h).state.status with
  | .errored m => .errored m
  | _ => .done

/-- Body of a modelled `Response`: a streaming body delivering fragments
then an outcome, or a plain text body. -/
inductive RespBody where
  | stream (frags : List Json) (outcome : StreamOutcome) : RespBody
  | text (t : String) : RespBody
deriving DecidableEq

/-- A modelled `Response`. -/
structure ResponseM where
  status : Nat
  body : RespBody
deriving DecidableEq

/-- Accessor `response.ok`. -/
def ResponseM.ok (r : ResponseM) : Bool :=
  200 ≤ r.status && r.status < 300

/-- Accessor `response.text()` as used on the error path (error responses carry a
text body). -/
def respText (r : ResponseM) : String :=
  match r.body with
  | .text t => t
  | .stream _ _ => ""

/-- Extraction of `provider`/`payload` from the request body string
(custom-fetch.ts lines 23-50), at value level: a body whose parse yields
truthy `provider` and `payload` fields supplies them, any other body is the
payload itself with the default provider. -/
def extractProviderPayload : Option Json → Json × Json
  | none => (Json.str "anthropic", Json.str "\x7b\x7d")
  | some b =>
    match jsGet b "provider", jsGet b "payload" with
    | some pv, some pl =>
      if jsTruthy pv && jsTruthy pl then (pv, pl) else (Json.str "anthropic", b)
    | _, _ => (Json.str "anthropic", b)

/-- Model of `customTauriFetch` (custom-fetch.ts): extracts the invoke arguments,
sets the stream up and returns an ok response carrying the stream.  Nothing
in the set-up path can throw, so the synchronous 500 catch branch of the
source is unreachable and the returned status is always 200. -/
def customTauriFetchModel (body : Option Json) (host : HostBehavior) : ResponseM :=
  let _args := extractProviderPayload body
  { status := 200, body := .stream (bridgeResult host).frags (bridgeOutcome host) }

/-! ### The chat session (useAIChat.ts, ai-provider.ts, chat-pane.tsx) -/

/-- Role of a chat message. -/
inductive MessageRole where
  | sent : MessageRole
  | received : MessageRole
deriving DecidableEq

/-- Structure `ChatMessage` from useAIChat.ts. -/
structure ChatMessage where
  id : String
  role : MessageRole
  content : String
  timestamp : String
deriving DecidableEq

/-- Provider-neutral message shape `{role, content}`. -/
structure AIMessage where
  role : String
  content : String
deriving DecidableEq

/-- Function `formatMessagesForAI` (useAIChat.ts lines 31-36). -/
def formatMessagesForAI (messages : List ChatMessage) : List AIMessage :=
  messages.map fun msg =>
    { role := if msg.role = .sent then "user" else "assistant"
      content := msg.content }

/-- Session state exposed by the hook: history, loading flag, last error
message. -/
structure SessionState where
  messages : List ChatMessage
  isLoading : Bool
  error : Option String
deriving DecidableEq

/-- Error-message derivation of the non-ok branch of `sendMessage`
(useAIChat.ts lines 166-180): start from the generic message; if the body
parses as JSON, `errorData.details || errorMessage`; if parsing throws,
`errorText || errorMessage`. -/
def deriveErrorMessage (errorText : String) : String :=
  let errorMessage := "Failed to get response from AI"
  match jsonParse errorText with
  | some errorData =>
    match jsGet errorData "details" with
    | some v => if jsTruthy v then jsToString v else errorMessage
    | none => errorMessage
  | none => if errorText ≠ "" then errorText else errorMessage

/-- Content update for one decoded stream chunk (useAIChat.ts lines 95-104):
append onto the message with the given id. -/
def appendToMessage (msgs : List ChatMessage) (messageId : String) (extra : String) :
    List ChatMessage :=
  msgs.map fun msg =>
    if msg.id = messageId then { msg with content := msg.content ++ extra } else msg

/-- Processing of one parsed chunk object in the read loop
(`if (data && data.content)` then append `data.content`). -/
def readFragmentStep (msgs : List ChatMessage) (messageId : String) (data : Json) :
    List ChatMessage :=
  if jsTruthy data then
    match jsGet data "content" with
    | some v => if jsTruthy v then appendToMessage msgs messageId (jsToString v) else msgs
    | none => msgs
  else msgs

/-- An `AIMessage` as the JSON object sent to the provider. -/
def aiMessageToJson (m : AIMessage) : Json :=
  Json.objCons "role" (Json.str m.role) (Json.objCons "content" (Json.str m.content) Json.objNil)

/-- A JS array value from a list of values. -/
def jsonArrOf : List Json → Json
  | [] => .arrNil
  | x :: xs => .arrCons x (jsonArrOf xs)

/-- The request body `{messages: formatted, model}` built by `sendMessage`
(useAIChat.ts lines 137-148) for the full history. -/
def turnRequestBody (msgs : List ChatMessage) (model : String) : Json :=
  Json.objCons "messages" (jsonArrOf ((formatMessagesForAI msgs).map aiMessageToJson))
    (Json.objCons "model" (Json.str model) Json.objNil)

/-- Constant `defaultModel` (ai-provider.ts). -/
def defaultModel : String := "claude-3-5-sonnet-latest"

/-- Function `getProviderForModel` (ai-provider.ts): first matching prefix of the
model-provider map in insertion order, defaulting to anthropic. -/
def getProviderForModel (model : String) : String :=
  if model.startsWith "claude-3-5-sonnet" then "anthropic"
  else if model.startsWith "claude-" then "anthropic"
  else if model.startsWith "gpt-" then "openai"
  else "anthropic"

/-- Modelled (engine-specific) TypeError text for destructuring a null
request body. -/
def destructureNullMessage : String :=
  "Cannot destructure property messages of body as it is null"

/-- Modelled (engine-specific) TypeError text for reading `.role` of a null
message element. -/
def nullMemberMessage : String :=
  "Cannot read properties of null reading role"

/-- Modelled (engine-specific) TypeError text for calling `.startsWith` on a
non-string model value. -/
def startsWithTypeMessage : String :=
  "model.startsWith is not a function"

/-- The 500 response of the catch branch of `handleChatRequest` (ai-provider.ts lines
81-93): a JSON body with `error` and `details` fields. -/
def chatErrorResponse (msg : String) : ResponseM :=
  ⟨500, .text (jsonStringify
    (Json.objCons "error" (Json.str "Failed to process request")
      (Json.objCons "details" (Json.str msg) Json.objNil)))⟩

/-- Mapping `transformedMessages` (ai-provider.ts lines 52-55): map each element to
`{role: msg.role, content: msg.content}`; reading a property of a null
element throws (`none`). -/
def transformMessages : Json → Option Json
  | .arrNil => some .arrNil
  | .arrCons h t =>
    match h with
    | .null => none
    | _ =>
      match transformMessages t with
      | some t2 =>
        some (.arrCons
          (Json.objCons "role" (jsGetD h "role")
            (Json.objCons "content" (jsGetD h "content") Json.objNil)) t2)
      | none => none
  | _ => some .arrNil

/-- Model of `handleChatRequest` (ai-provider.ts) at value level, with the host
behaviour standing for the Rust side of the one `stream_api_request` the
call leads to.  Any throw inside the try lands in the catch producing
`chatErrorResponse`. -/
def handleChatRequestCore (body : Json) (host : HostBehavior) : ResponseM :=
  match body with
  | .null => chatErrorResponse destructureNullMessage
  | _ =>
    let modelv : Json :=
      match jsGet body "model" with
      | some m => if jsTruthy m then m else .str defaultModel
      | none => .str defaultModel
    match modelv with
    | .str modelStr =>
      let provider := getProviderForModel modelStr
      match jsGet body "messages" with
      | some ms =>
        if ms.isArr then
          match transformMessages ms with
          | none => chatErrorResponse nullMemberMessage
          | some transformed =>
            let apiPayload := jsonStringify
              (Json.objCons "model" (.str modelStr)
                (Json.objCons "messages" transformed
                  (Json.objCons "stream" (.bool true)
                    (if provider = "anthropic"
                     then Json.objCons "max_tokens" (.num 1000 0) Json.objNil
                     else Json.objNil))))
            customTauriFetchModel
              (some (Json.objCons "provider" (.str provider)
                (Json.objCons "payload" (.str apiPayload) Json.objNil))) host
        else chatErrorResponse "Invalid request: messages array is required"
      | none => chatErrorResponse "Invalid request: messages array is required"
    | _ => chatErrorResponse startsWithTypeMessage

/-- Body of `sendMessage` (useAIChat.ts lines 117-192) given the response of the
open call: append the user message, then either take the non-ok error path
(no assistant message is created) or run `handleStreamingResponse`, which
appends the empty placeholder, folds the fragments into it and settles
loading/error state from the outcome. -/
def sendMessageWith (s : SessionState) (messageText : String) (resp : ResponseM)
    (now : Nat) (ts : String) : SessionState :=
  let userMessage : ChatMessage := ⟨toString now ++ "-user", .sent, messageText, ts⟩
  let msgs1 := s.messages ++ [userMessage]
  if resp.ok = false then
    ⟨msgs1, false, some (deriveErrorMessage (respText resp))⟩
  else
    match resp.body with
    | .stream frags outcome =>
      let assistantMessageId := toString now ++ "-assistant"
      let msgs2 := msgs1 ++ [⟨assistantMessageId, .received, "", ts⟩]
      let msgs3 := frags.foldl (fun acc d => readFragmentStep acc assistantMessageId d) msgs2
      match outcome with
      | .done => ⟨msgs3, false, none⟩
      | .errored m => ⟨msgs3, false, some m⟩
    | .text _ =>
      ⟨msgs1, false, some "Response has no body"⟩

/-- One full turn of the session: build the request body from the full
history (the new user message included) and hand the response of
`handleChatRequest` to the rest of `sendMessage`. -/
def runTurn (s : SessionState) (messageText model : String) (host : HostBehavior)
    (now : Nat) (ts : String) : SessionState :=
  let userMessage : ChatMessage := ⟨toString now ++ "-user", .sent, messageText, ts⟩
  sendMessageWith s messageText
    (handleChatRequestCore (turnRequestBody (s.messages ++ [userMessage]) model) host) now ts

/-- Function `handleSend` (chat-pane.tsx lines 71-79): trim the input, no-op when the
result is empty, otherwise send it.  The boolean records whether
`sendMessage` (and with it any host interaction) was invoked. -/
def handleSend (s : SessionState) (inputValue model : String) (host : HostBehavior)
    (now : Nat) (ts : String) : SessionState × Bool :=
  let text := jsTrim inputValue
  if text = "" then (s, false)
  else (runTurn s text model host now ts, true)

/-- Invariant of a bridge state reachable from `openBridgeState`: map entry
and subscriptions live and die together, a live stream is still readable and
untorn, a dead one has been torn down at least once. -/
def bridgeInv (s : BridgeState) : Prop :=
  s.inMap = s.live ∧ (s.live = true → s.status = .readable ∧ s.teardowns = 0) ∧
    (s.live = false → 1 ≤ s.teardowns)

/-! ### Theorems -/

theorem bridgeInv_open : bridgeInv openBridgeState := by
  refine ⟨rfl, fun _ => ⟨rfl, rfl⟩, fun h => by simp [openBridgeState] at h⟩

theorem step_chunk_state (s : BridgeState) (p : Option String) :
    (step s (.chunk p)).1 = s := by
  cases hl : s.live <;> cases hf : chunkFragment p <;> simp [step, hl, hf]

theorem step_invokes (s : BridgeState) (e : BridgeEv) :
    (step s e).1.invokes = s.invokes := by
  cases e with
  | chunk p => rw [step_chunk_state]
  | endEv =>
    cases hl : s.live
    · simp [step, hl]
    · simp [step, hl]; split <;> simp
  | errorEv p => cases hl : s.live <;> simp [step, hl]
  | reject err => simp [step]
  | cancel => cases hm : s.inMap <;> simp [step, hm]

theorem step_no_throw (s : BridgeState) (h : bridgeInv s) (e : BridgeEv) :
    (step s e).2.2 = false := by
  obtain ⟨h1, h2, h3⟩ := h
  cases e with
  | chunk p => cases hl : s.live <;> cases hf : chunkFragment p <;> simp [step, hl, hf]
  | endEv =>
    cases hl : s.live
    · simp [step, hl]
    · simp [step, hl, (h2 hl).1]
  | errorEv p => cases hl : s.live <;> simp [step, hl]
  | reject err => simp [step]
  | cancel => cases hm : s.inMap <;> simp [step, hm]

theorem step_inv (s : BridgeState) (h : bridgeInv s) (e : BridgeEv) :
    bridgeInv (step s e).1 := by
  obtain ⟨h1, h2, h3⟩ := h
  cases e with
  | chunk p => rw [step_chunk_state]; exact ⟨h1, h2, h3⟩
  | endEv =>
    cases hl : s.live
    · simp only [step, hl]
      exact ⟨h1, h2, h3⟩
    · simp only [step, hl, (h2 hl).1, if_true, if_pos]
      refine ⟨rfl, by simp, by simp⟩
  | errorEv p =>
    cases hl : s.live
    · simp only [step, hl]
      exact ⟨h1, h2, h3⟩
    · simp only [step, hl, if_true]
      refine ⟨rfl, by simp, by simp⟩
  | reject err =>
    simp only [step]
    refine ⟨rfl, by simp, by simp⟩
  | cancel =>
    cases hm : s.inMap
    · simp only [step, hm]
      exact ⟨h1, h2, h3⟩
    · simp only [step, hm, if_true]
      refine ⟨rfl, by simp, by simp⟩

theorem step_terminal_torn (s : BridgeState) (h : bridgeInv s) (e : BridgeEv)
    (ht : terminalEv e = true) :
    (step s e).1.live = false ∧ (step s e).1.inMap = false ∧ 1 ≤ (step s e).1.teardowns := by
  obtain ⟨h1, h2, h3⟩ := h
  cases e with
  | chunk p => simp [terminalEv] at ht
  | endEv =>
    cases hl : s.live
    · simpa [step, hl] using ⟨h1.trans hl, h3 hl⟩
    · simp [step, hl, (h2 hl).1]
  | errorEv p =>
    cases hl : s.live
    · simpa [step, hl] using ⟨h1.trans hl, h3 hl⟩
    · simp [step, hl]
  | reject err => simp [step]
  | cancel =>
    cases hm : s.inMap
    · simpa [step, hm] using ⟨h1.symm.trans hm, h3 (h1.symm.trans hm)⟩
    · simp [step, hm]

theorem runBridge_inv (s : BridgeState) (h : bridgeInv s) (evs : List BridgeEv) :
    bridgeInv (runBridge s evs).state ∧ (runBridge s evs).threw = false := by
  induction evs generalizing s with
  | nil => exact ⟨h, rfl⟩
  | cons e evs ih =>
    have h1 := step_inv s h e
    have h2 := step_no_throw s h e
    have := ih (step s e).1 h1
    simp [runBridge, this.1, this.2, h2]

theorem runBridge_invokes (s : BridgeState) (evs : List BridgeEv) :
    (runBridge s evs).state.invokes = s.invokes := by
  induction evs generalizing s with
  | nil => rfl
  | cons e evs ih => simp [runBridge, ih, step_invokes]

theorem runBridge_dead (s : BridgeState) (h1 : s.live = false) (h2 : s.inMap = false)
    (evs : List BridgeEv) :
    (runBridge s evs).frags = [] ∧ (runBridge s evs).state.live = false ∧
      (runBridge s evs).state.inMap = false ∧
      s.teardowns ≤ (runBridge s evs).state.teardowns ∧
      (runBridge s evs).threw = false := by
  induction evs generalizing s with
  | nil => exact ⟨rfl, h1, h2, le_refl _, rfl⟩
  | cons e evs ih =>
    have hstep : (step s e).1.live = false ∧ (step s e).1.inMap = false ∧
        s.teardowns ≤ (step s e).1.teardowns ∧ (step s e).2.1 = [] ∧ (step s e).2.2 = false := by
      cases e with
      | chunk p => simp [step, h1, h2]
      | endEv => simp [step, h1, h2]
      | errorEv p => simp [step, h1, h2]
      | reject err => simp [step]
      | cancel => simp [step, h1, h2]
    obtain ⟨hs1, hs2, hs3, hs4, hs5⟩ := hstep
    obtain ⟨i1, i2, i3, i4, i5⟩ := ih (step s e).1 hs1 hs2
    exact ⟨by simp [runBridge, hs4, i1], by simp [runBridge, i2], by simp [runBridge, i3],
      by simp [runBridge]; exact hs3.trans i4, by simp [runBridge, hs5, i5]⟩

theorem runBridge_append (s : BridgeState) (xs ys : List BridgeEv) :
    runBridge s (xs ++ ys) =
      ⟨(runBridge (runBridge s xs).state ys).state,
        (runBridge s xs).frags ++ (runBridge (runBridge s xs).state ys).frags,
        (runBridge s xs).threw || (runBridge (runBridge s xs).state ys).threw⟩ := by
  induction xs generalizing s with
  | nil => simp [runBridge]
  | cons e xs ih => simp [runBridge, ih, Bool.or_assoc]

theorem runBridge_nonterminal (s : BridgeState) (evs : List BridgeEv)
    (h : ∀ e ∈ evs, terminalEv e = false) :
    (runBridge s evs).state = s := by
  induction evs generalizing s with
  | nil => rfl
  | cons e evs ih =>
    have hcons := h e (List.mem_cons_self e evs)
    have he : (step s e).1 = s := by
      cases e with
      | chunk p => exact step_chunk_state s p
      | endEv => simp [terminalEv] at hcons
      | errorEv p => simp [terminalEv] at hcons
      | reject err => simp [terminalEv] at hcons
      | cancel => simp [terminalEv] at hcons
    have := ih (step s e).1 (fun x hx => h x (by simp [hx]))
    simp [runBridge, he] at this ⊢
    simp [this]

theorem runBridge_terminal_torn (s : BridgeState) (h : bridgeInv s) (evs : List BridgeEv)
    (ht : evs.any terminalEv = true) :
    (runBridge s evs).state.live = false ∧ (runBridge s evs).state.inMap = false ∧
      1 ≤ (runBridge s evs).state.teardowns := by
  induction evs generalizing s with
  | nil => simp at ht
  | cons e evs ih =>
    cases hte : terminalEv e
    · have hne : evs.any terminalEv = true := by
        simpa [hte] using ht
      have := ih s h hne
      have hs : (step s e).1 = s := by
        cases e with
        | chunk p => exact step_chunk_state s p
        | endEv => simp [terminalEv] at hte
        | errorEv p => simp [terminalEv] at hte
        | reject err => simp [terminalEv] at hte
        | cancel => simp [terminalEv] at hte
      simpa [runBridge, hs] using this
    · obtain ⟨t1, t2, t3⟩ := step_terminal_torn s h e hte
      obtain ⟨d1, d2, d3, d4, d5⟩ := runBridge_dead (step s e).1 t1 t2 evs
      exact ⟨by simp [runBridge, d2], by simp [runBridge, d3],
        by simp [runBridge]; exact t3.trans d4⟩

/-- C3: for every stream opened by customTauriFetch, the three event
subscriptions registered for its requestId are fully torn down (all three
unsubscribed and the requestId removed from the listener map) after any
event sequence containing a terminal event (end, error, host-command
rejection, or consumer cancellation) — at least one teardown pass runs and
none is left live; no teardown happens without a terminal event; and no
handler ever throws, in particular not a second teardown attempt such as
cancel after end. -/
theorem listener_teardown_lifecycle (evs : List BridgeEv) :
    (runBridge openBridgeState evs).threw = false ∧
    (evs.any terminalEv = true →
      (runBridge openBridgeState evs).state.live = false ∧
      (runBridge openBridgeState evs).state.inMap = false ∧
      1 ≤ (runBridge openBridgeState evs).state.teardowns) ∧
    (evs.any terminalEv = false → (runBridge openBridgeState evs).state = openBridgeState) := by
  refine ⟨(runBridge_inv openBridgeState bridgeInv_open evs).2,
    fun ht => runBridge_terminal_torn openBridgeState bridgeInv_open evs ht,
    fun hn => runBridge_nonterminal openBridgeState evs ?_⟩
  intro e he
  by_contra hc
  have : evs.any terminalEv = true := by
    refine List.any_eq_true.mpr ⟨e, he, ?_⟩
    cases hte : terminalEv e
    · exact absurd hte hc
    · rfl
  rw [this] at hn
  cases hn

/-- Witness for C3 at a concrete event sequence: a chunk, then the end
event, then a late cancel (the second teardown attempt). -/
theorem listener_teardown_lifecycle_witness :
    (runBridge openBridgeState
        [BridgeEv.chunk (some "a"), BridgeEv.endEv, BridgeEv.cancel]).threw = false ∧
    (runBridge openBridgeState
        [BridgeEv.chunk (some "a"), BridgeEv.endEv, BridgeEv.cancel]).state.live = false ∧
    (runBridge openBridgeState
        [BridgeEv.chunk (some "a"), BridgeEv.endEv, BridgeEv.cancel]).state.inMap = false ∧
    1 ≤ (runBridge openBridgeState
        [BridgeEv.chunk (some "a"), BridgeEv.endEv, BridgeEv.cancel]).state.teardowns := by
  have h := listener_teardown_lifecycle
    [BridgeEv.chunk (some "a"), BridgeEv.endEv, BridgeEv.cancel]
  exact ⟨h.1, h.2.1 (by decide)⟩

/-- C10: a chunk event whose payload is absent or coerces to a falsy value
(the empty string) enqueues no fragment, leaves the bridge state (listeners,
map entry, stream status) unchanged, and throws nothing — it neither
terminates nor errors the stream. -/
theorem falsy_chunk_noop (s : BridgeState) :
    step s (.chunk none) = (s, [], false) ∧ step s (.chunk (some "")) = (s, [], false) := by
  constructor <;> (cases hl : s.live <;> simp [step, chunkFragment, hl])

/-- C5: cancelling after any run of non-terminal events delivers no further
fragment (the fragment trace of the whole run equals that of the prefix),
leaves zero live subscriptions and no map entry for the request id, issues
no further host command (the invoke count stays at the single one made at
open), and throws nothing. -/
theorem cancel_stops_stream (pre post : List BridgeEv)
    (h : ∀ e ∈ pre, terminalEv e = false) :
    (runBridge openBridgeState (pre ++ BridgeEv.cancel :: post)).frags =
      (runBridge openBridgeState pre).frags ∧
    (runBridge openBridgeState (pre ++ BridgeEv.cancel :: post)).state.live = false ∧
    (runBridge openBridgeState (pre ++ BridgeEv.cancel :: post)).state.inMap = false ∧
    (runBridge openBridgeState (pre ++ BridgeEv.cancel :: post)).state.invokes =
      openBridgeState.invokes ∧
    (runBridge openBridgeState (pre ++ BridgeEv.cancel :: post)).threw = false := by
  have hpre := runBridge_nonterminal openBridgeState pre h
  have hinv := runBridge_inv openBridgeState bridgeInv_open pre
  have happ := runBridge_append openBridgeState pre (BridgeEv.cancel :: post)
  have hstep : step openBridgeState BridgeEv.cancel =
      (⟨false, false, .readable, 1, 1⟩, ([] : List Json), false) := by decide
  obtain ⟨d1, d2, d3, d4, d5⟩ :=
    runBridge_dead ⟨false, false, .readable, 1, 1⟩ rfl rfl post
  have hinvk := runBridge_invokes (⟨false, false, .readable, 1, 1⟩ : BridgeState) post
  rw [happ, hpre]
  simp only [runBridge, hstep]
  exact ⟨by simp [d1], by simp [d2], by simp [d3], by simp [hinvk, openBridgeState],
    by simp [hinv.2, d5]⟩

/-- Witness for C5: cancel after one delivered chunk; a later chunk and the
late end event are ignored without a throw. -/
theorem cancel_stops_stream_witness :
    (runBridge openBridgeState
        ([BridgeEv.chunk (some "h")] ++ BridgeEv.cancel ::
          [BridgeEv.chunk (some "x"), BridgeEv.endEv])).frags =
      (runBridge openBridgeState [BridgeEv.chunk (some "h")]).frags ∧
    (runBridge openBridgeState
        ([BridgeEv.chunk (some "h")] ++ BridgeEv.cancel ::
          [BridgeEv.chunk (some "x"), BridgeEv.endEv])).state.live = false ∧
    (runBridge openBridgeState
        ([BridgeEv.chunk (some "h")] ++ BridgeEv.cancel ::
          [BridgeEv.chunk (some "x"), BridgeEv.endEv])).state.inMap = false ∧
    (runBridge openBridgeState
        ([BridgeEv.chunk (some "h")] ++ BridgeEv.cancel ::
          [BridgeEv.chunk (some "x"), BridgeEv.endEv])).state.invokes =
      openBridgeState.invokes ∧
    (runBridge openBridgeState
        ([BridgeEv.chunk (some "h")] ++ BridgeEv.cancel ::
          [BridgeEv.chunk (some "x"), BridgeEv.endEv])).threw = false :=
  cancel_stops_stream [BridgeEv.chunk (some "h")]
    [BridgeEv.chunk (some "x"), BridgeEv.endEv] (by decide)

theorem findIdx_of_any {l : List Char} {c : Char} (h : l.any (· == c) = true) :
    ∃ i, l.findIdx? (· == c) = some i := by
  induction l with
  | nil => simp at h
  | cons a l ih =>
    by_cases ha : (a == c) = true
    · exact ⟨0, by simp [List.findIdx?_cons, ha]⟩
    · have hl : l.any (· == c) = true := by simpa [ha] using h
      obtain ⟨i, hi⟩ := ih hl
      exact ⟨i + 1, by simp [List.findIdx?_cons, ha, hi]⟩

theorem jsIndexOf_ne_neg (s : String) (c : Char) (h : jsIncludes s c = true) :
    jsIndexOf s c ≠ -1 := by
  obtain ⟨i, hi⟩ := findIdx_of_any (l := s.data) (c := c) h
  simp only [jsIndexOf, hi]
  omega

theorem jsLastIndexOf_ne_neg (s : String) (c : Char) (h : jsIncludes s c = true) :
    jsLastIndexOf s c ≠ -1 := by
  have hr : s.data.reverse.any (· == c) = true := by
    rw [List.any_reverse]
    exact h
  obtain ⟨i, hi⟩ := findIdx_of_any hr
  simp only [jsLastIndexOf, hi]
  omega

/-- C2 (amended): when the payload text contains both a `:` and a `\n`, the
substring between the first `:` and the last `\n` is trimmed of surrounding
whitespace and parsed as JSON — any successfully parsed JSON value becomes
the content, and on parse failure the trimmed substring is used; text
without such framing is used verbatim; the payload `0:"hello"\n` normalizes
to `hello`, the unframed payload `hello` stays `hello`; a truthy payload is
wrapped as one `{content: _}` fragment. -/
theorem chunk_normalization (s : String) :
    (jsIncludes s ':' = true → jsIncludes s '\n' = true →
      normalizeChunk s =
        ((jsonParse (jsTrim (jsSubstring s (jsIndexOf s ':' + 1) (jsLastIndexOf s '\n')))).getD
          (Json.str (jsTrim (jsSubstring s (jsIndexOf s ':' + 1) (jsLastIndexOf s '\n')))))) ∧
    ((jsIncludes s ':' && jsIncludes s '\n') = false → normalizeChunk s = Json.str s) ∧
    normalizeChunk "0:\"hello\"\n" = Json.str "hello" ∧
    normalizeChunk "hello" = Json.str "hello" ∧
    (∀ t : String, ¬ t = "" →
      chunkFragment (some t) = some (Json.objCons "content" (normalizeChunk t) Json.objNil)) := by
  refine ⟨?_, ?_, by decide, by decide, ?_⟩
  · intro h1 h2
    unfold normalizeChunk
    rw [if_pos (by simp [h1, h2])]
    have e1 := jsIndexOf_ne_neg s ':' h1
    have e2 := jsLastIndexOf_ne_neg s '\n' h2
    rw [if_pos (by simp [bne_iff_ne, e1, e2])]
    cases hp : jsonParse (jsTrim (jsSubstring s (jsIndexOf s ':' + 1) (jsLastIndexOf s '\n'))) <;>
      simp [hp]
  · intro hno
    unfold normalizeChunk
    rw [if_neg (by simp [hno])]
  · intro t ht
    simp [chunkFragment, ht]

/-- Counterexample to C2 as stated: for the payload `0:abc \n` the code
keeps the trimmed substring `abc`, not the raw substring `abc `, and for
`0: 42 \n` it parses the trimmed substring as the JSON number 42 instead of
falling back to the raw substring ` 42 `. -/
theorem chunk_normalization_cex :
    normalizeChunk "0:abc \n" = Json.str "abc" ∧
    ¬ normalizeChunk "0:abc \n" = Json.str "abc " ∧
    normalizeChunk "0: 42 \n" = Json.num 42 0 ∧
    ¬ normalizeChunk "0: 42 \n" = Json.str " 42 " := by decide

/-- Witness for C2 at concrete payloads. -/
theorem chunk_normalization_witness :
    normalizeChunk "1:\"hi\"\n" =
      ((jsonParse (jsTrim (jsSubstring "1:\"hi\"\n" (jsIndexOf "1:\"hi\"\n" ':' + 1)
          (jsLastIndexOf "1:\"hi\"\n" '\n')))).getD
        (Json.str (jsTrim (jsSubstring "1:\"hi\"\n" (jsIndexOf "1:\"hi\"\n" ':' + 1)
          (jsLastIndexOf "1:\"hi\"\n" '\n'))))) ∧
    normalizeChunk "plain" = Json.str "plain" ∧
    chunkFragment (some "plain") =
      some (Json.objCons "content" (normalizeChunk "plain") Json.objNil) := by
  have h1 := (chunk_normalization "1:\"hi\"\n").1 (by decide) (by decide)
  have h2 := (chunk_normalization "plain").2.1 (by decide)
  have h3 := (chunk_normalization "plain").2.2.2.2 "plain" (by decide)
  exact ⟨h1, h2, h3⟩

/-- C6: submitting input that is empty after trimming is a no-op: history,
loading flag and last error are unchanged and sendMessage (hence any host
interaction) is never invoked. -/
theorem empty_submit_noop (s : SessionState) (inputValue model : String) (host : HostBehavior)
    (now : Nat) (ts : String) (h : jsTrim inputValue = "") :
    handleSend s inputValue model host now ts = (s, false) := by
  simp [handleSend, h]

/-- Witness for C6 on whitespace-only input. -/
theorem empty_submit_noop_witness :
    handleSend ⟨[], false, none⟩ " \t  " "claude-3-5-sonnet-latest"
        (.reject "x") 0 "t" = (⟨[], false, none⟩, false) :=
  empty_submit_noop ⟨[], false, none⟩ " \t  " "claude-3-5-sonnet-latest"
    (.reject "x") 0 "t" (by decide)

/-- Counterexample to C7 as stated: a non-ok body that parses as JSON
without a details field (here `{}`) yields the generic message rather than
the raw body text, and a details field holding the empty string also yields
the generic message rather than the value of that field. -/
theorem error_fallback_cex :
    deriveErrorMessage "\x7b\x7d" = "Failed to get response from AI" ∧
    ¬ deriveErrorMessage "\x7b\x7d" = "\x7b\x7d" ∧
    deriveErrorMessage "\x7b\"details\":\"\"\x7d" = "Failed to get response from AI" ∧
    ¬ deriveErrorMessage "\x7b\"details\":\"\"\x7d" = "" := by decide

/-- C7 (amended): on a non-ok response the turn takes the error path without
creating a Received message (isLoading false, lastError set), the message
being derived as: the details field of the parsed body when the body parses as
JSON with a truthy one; the generic failure message when it parses without
a truthy details field; the raw body text when parsing fails on a non-empty
body; the generic failure message when the body is empty. -/
theorem error_fallback (body : String) (s : SessionState) (text : String) (resp : ResponseM)
    (now : Nat) (ts : String) (h : resp.ok = false) :
    sendMessageWith s text resp now ts =
      ⟨s.messages ++ [⟨toString now ++ "-user", .sent, text, ts⟩], false,
        some (deriveErrorMessage (respText resp))⟩ ∧
    (∀ d v, jsonParse body = some d → jsGet d "details" = some v → jsTruthy v = true →
      deriveErrorMessage body = jsToString v) ∧
    (∀ d, jsonParse body = some d → (∀ v, jsGet d "details" = some v → jsTruthy v = false) →
      deriveErrorMessage body = "Failed to get response from AI") ∧
    (jsonParse body = none → ¬ body = "" → deriveErrorMessage body = body) ∧
    (body = "" → deriveErrorMessage body = "Failed to get response from AI") := by
  refine ⟨?_, ?_, ?_, ?_, ?_⟩
  · simp [sendMessageWith, h]
  · intro d v hd hv htr
    simp [deriveErrorMessage, hd, hv, htr]
  · intro d hd hv
    cases hg : jsGet d "details" with
    | none => simp [deriveErrorMessage, hd, hg]
    | some v => simp [deriveErrorMessage, hd, hg, hv v hg]
  · intro hn hne
    simp [deriveErrorMessage, hn, hne]
  · intro he
    subst he
    decide

/-- Witness for C7: a concrete non-ok response and a concrete unparseable
body. -/
theorem error_fallback_witness :
    sendMessageWith ⟨[], false, none⟩ "hi" ⟨500, RespBody.text "oops"⟩ 3 "t" =
      ⟨([] : List ChatMessage) ++ [⟨toString 3 ++ "-user", .sent, "hi", "t"⟩], false,
        some (deriveErrorMessage (respText ⟨500, RespBody.text "oops"⟩))⟩ ∧
    deriveErrorMessage "nope" = "nope" := by
  have h := error_fallback "nope" ⟨[], false, none⟩ "hi" ⟨500, RespBody.text "oops"⟩ 3 "t"
    (by decide)
  exact ⟨h.1, h.2.2.2.1 (by decide) (by decide)⟩

theorem formatMessagesForAI_length (msgs : List ChatMessage) :
    (formatMessagesForAI msgs).length = msgs.length := by
  simp [formatMessagesForAI]

/-- C8: formatting the history for the provider is the element-wise mapping
Sent→user, Received→assistant with content preserved, applied to the whole
history in order with no truncation, and the request body carries exactly
this full formatted history; in particular [Sent hi, Received yo] formats
to [{user,hi},{assistant,yo}]. -/
theorem format_history (msgs : List ChatMessage) (model : String) (i : Nat)
    (h : i < msgs.length) :
    (formatMessagesForAI msgs).length = msgs.length ∧
    (formatMessagesForAI msgs).get ⟨i, by rw [formatMessagesForAI_length]; exact h⟩ =
      ⟨if (msgs.get ⟨i, h⟩).role = MessageRole.sent then "user" else "assistant",
        (msgs.get ⟨i, h⟩).content⟩ ∧
    jsGet (turnRequestBody msgs model) "messages" =
      some (jsonArrOf ((formatMessagesForAI msgs).map aiMessageToJson)) ∧
    formatMessagesForAI [⟨"1", .sent, "hi", "t0"⟩, ⟨"2", .received, "yo", "t1"⟩] =
      [⟨"user", "hi"⟩, ⟨"assistant", "yo"⟩] := by
  refine ⟨formatMessagesForAI_length msgs, ?_, ?_, by decide⟩
  · simp [formatMessagesForAI]
  · simp [turnRequestBody, jsGet]

/-- Witness for C8 at a concrete two-message history. -/
theorem format_history_witness :
    (formatMessagesForAI [⟨"1", .sent, "hi", "t0"⟩, ⟨"2", .received, "yo", "t1"⟩]).length = 2 ∧
    formatMessagesForAI [⟨"1", .sent, "hi", "t0"⟩, ⟨"2", .received, "yo", "t1"⟩] =
      [⟨"user", "hi"⟩, ⟨"assistant", "yo"⟩] := by
  have h := format_history [⟨"1", .sent, "hi", "t0"⟩, ⟨"2", .received, "yo", "t1"⟩]
    "claude-3-5-sonnet-latest" 0 (by decide)
  exact ⟨h.1, h.2.2.2⟩

theorem strJoin_cons (c : String) (cs : List String) :
    String.join (c :: cs) = c ++ String.join cs := by
  apply String.ext
  simp [String.join_eq]

theorem transformMessages_format (ams : List AIMessage) :
    transformMessages (jsonArrOf (ams.map aiMessageToJson)) =
      some (jsonArrOf (ams.map aiMessageToJson)) := by
  induction ams with
  | nil => rfl
  | cons m ams ih =>
    show transformMessages (Json.arrCons (aiMessageToJson m)
      (jsonArrOf (ams.map aiMessageToJson))) = _
    rw [show aiMessageToJson m = Json.objCons "role" (Json.str m.role)
      (Json.objCons "content" (Json.str m.content) Json.objNil) from rfl]
    simp only [transformMessages, ih]
    simp [jsGetD, jsGet, aiMessageToJson]
    rfl

theorem jsonArrOf_isArr (l : List Json) : (jsonArrOf l).isArr = true := by
  cases l <;> rfl

theorem jsGet_turnRequestBody_model (msgs : List ChatMessage) (model : String) :
    jsGet (turnRequestBody msgs model) "model" = some (Json.str model) := by
  simp [turnRequestBody, jsGet]

theorem jsGet_turnRequestBody_messages (msgs : List ChatMessage) (model : String) :
    jsGet (turnRequestBody msgs model) "messages" =
      some (jsonArrOf ((formatMessagesForAI msgs).map aiMessageToJson)) := by
  simp [turnRequestBody, jsGet]

theorem handleChatRequest_body_ok (A : Json) (model : String) (host : HostBehavior)
    (hArr : A.isArr = true) (hT : transformMessages A = some A) :
    handleChatRequestCore
        (Json.objCons "messages" A (Json.objCons "model" (Json.str model) Json.objNil)) host =
      ⟨200, .stream (bridgeResult host).frags (bridgeOutcome host)⟩ := by
  by_cases hm : model = "" <;>
    simp [handleChatRequestCore, jsGet, jsTruthy, hArr, hT, hm, customTauriFetchModel]

theorem handleChatRequest_turn (msgs : List ChatMessage) (model : String) (host : HostBehavior) :
    handleChatRequestCore (turnRequestBody msgs model) host =
      ⟨200, .stream (bridgeResult host).frags (bridgeOutcome host)⟩ :=
  handleChatRequest_body_ok (jsonArrOf ((formatMessagesForAI msgs).map aiMessageToJson))
    model host (jsonArrOf_isArr _) (transformMessages_format _)

theorem bridgeResult_reject (err : String) :
    bridgeResult (.reject err) = ⟨⟨false, false, .errored err, 1, 1⟩, [], false⟩ := by
  simp [bridgeResult, eventsOf, runBridge, step, openBridgeState]

/-- C4 (amended): when the host rejects the stream_api_request command for a
submitted turn, the settled state has isLoading false and lastError holding
the rejection value; exactly one Received message was appended for the turn
— the empty placeholder created by handleStreamingResponse before the first
read — and its content stays empty. -/
theorem reject_surfaces_error (s : SessionState) (text model err : String)
    (now : Nat) (ts : String) :
    runTurn s text model (.reject err) now ts =
      ⟨s.messages ++ [⟨toString now ++ "-user", .sent, text, ts⟩,
        ⟨toString now ++ "-assistant", .received, "", ts⟩], false, some err⟩ := by
  unfold runTurn
  dsimp only
  rw [handleChatRequest_turn, bridgeResult_reject]
  have ho : bridgeOutcome (.reject err) = .errored err := by
    rw [bridgeOutcome, bridgeResult_reject]
  rw [ho]
  simp [sendMessageWith, ResponseM.ok]

/-- Counterexample to C4 as stated: after a host rejection the turn settles
with isLoading false and lastError populated, but the history does contain
a Received message appended for that turn (the empty placeholder). -/
theorem reject_surfaces_error_cex :
    (runTurn ⟨[], false, none⟩ "hi" "claude-3-5-sonnet-latest"
        (.reject "boom") 0 "12:00").isLoading = false ∧
    (runTurn ⟨[], false, none⟩ "hi" "claude-3-5-sonnet-latest"
        (.reject "boom") 0 "12:00").error = some "boom" ∧
    ((runTurn ⟨[], false, none⟩ "hi" "claude-3-5-sonnet-latest"
        (.reject "boom") 0 "12:00").messages.any
      (fun m => m.role == MessageRole.received)) = true := by decide

theorem appendToMessage_append (xs ys : List ChatMessage) (aid e : String) :
    appendToMessage (xs ++ ys) aid e = appendToMessage xs aid e ++ appendToMessage ys aid e := by
  simp [appendToMessage]

theorem appendToMessage_skip (xs : List ChatMessage) (aid e : String)
    (h : ∀ m ∈ xs, ¬ m.id = aid) :
    appendToMessage xs aid e = xs := by
  induction xs with
  | nil => rfl
  | cons x xs ih =>
    have hx := h x (List.mem_cons_self x xs)
    simp [appendToMessage, hx] at ih ⊢
    exact ih fun m hm => h m (List.mem_cons_of_mem x hm)

theorem fold_frags (cs : List String) (pre : List ChatMessage) (aid acc ts : String)
    (hpre : ∀ m ∈ pre, ¬ m.id = aid) :
    (cs.map (fun c => Json.objCons "content" (Json.str c) Json.objNil)).foldl
        (fun msgs d => readFragmentStep msgs aid d) (pre ++ [⟨aid, .received, acc, ts⟩]) =
      pre ++ [⟨aid, .received, acc ++ String.join cs, ts⟩] := by
  induction cs generalizing acc with
  | nil => simp [String.join]
  | cons c cs ih =>
    simp only [List.map_cons, List.foldl_cons]
    have hstep : readFragmentStep (pre ++ [⟨aid, .received, acc, ts⟩]) aid
        (Json.objCons "content" (Json.str c) Json.objNil) =
        pre ++ [⟨aid, .received, acc ++ c, ts⟩] := by
      by_cases hc : c = ""
      · subst hc
        simp [readFragmentStep, jsTruthy, jsGet]
      · have hskip := appendToMessage_skip pre aid c hpre
        simp only [appendToMessage] at hskip
        simp [readFragmentStep, jsTruthy, jsGet, hc, jsToString, appendToMessage_append,
          appendToMessage, hskip]
    rw [hstep, ih (acc ++ c), strJoin_cons, String.append_assoc]

theorem runBridge_chunksFirst (chunks : List (Option String)) (s : BridgeState)
    (hl : s.live = true) (hs : s.status = .readable) (evs : List BridgeEv) :
    runBridge s (chunks.map BridgeEv.chunk ++ evs) =
      ⟨(runBridge s evs).state, chunks.filterMap chunkFragment ++ (runBridge s evs).frags,
        (runBridge s evs).threw⟩ := by
  induction chunks with
  | nil => simp [runBridge]
  | cons p chunks ih =>
    have hstep : step s (.chunk p) =
        (s, (match chunkFragment p with | some f => [f] | none => []), false) := by
      cases hf : chunkFragment p <;> simp [step, hl, hs, hf]
    simp only [List.map_cons, List.cons_append, runBridge, hstep, List.filterMap_cons]
    cases hf : chunkFragment p <;> simp [hf, ih]

theorem bridgeResult_chunks_end (chunks : List (Option String)) :
    bridgeResult (.events chunks .endOfStream) =
      ⟨⟨false, false, .closed, 1, 1⟩, chunks.filterMap chunkFragment, false⟩ := by
  have hend : runBridge openBridgeState [BridgeEv.endEv] =
      ⟨⟨false, false, .closed, 1, 1⟩, [], false⟩ := by decide
  rw [bridgeResult, eventsOf,
    runBridge_chunksFirst chunks openBridgeState rfl rfl [BridgeEv.endEv], hend]
  simp

theorem userId_ne_assistantId (now : Nat) :
    ¬ (toString now ++ "-user" = toString now ++ "-assistant") := by
  intro h
  have h1 : (toString now).data ++ ("-user" : String).data =
      (toString now).data ++ ("-assistant" : String).data := by
    have := congrArg String.data h
    rwa [String.data_append, String.data_append] at this
  have h2 := List.append_cancel_left h1
  simp at h2

/-- C1: for a turn whose stream delivers chunk events normalizing to the
string contents c1..cn (empty-payload events contributing nothing) followed
by the end event, the single Received message created for the turn ends
with content equal to the concatenation c1 ++ ... ++ cn in event-arrival
order (including n = 0 giving empty content), the turn settling with
isLoading false and no error. -/
theorem streamed_content_concat (s : SessionState) (text model : String) (now : Nat)
    (ts : String) (chunks : List (Option String)) (cs : List String)
    (hn : chunks.filterMap chunkFragment =
      cs.map (fun c => Json.objCons "content" (Json.str c) Json.objNil))
    (hid : ∀ m ∈ s.messages, ¬ m.id = toString now ++ "-assistant") :
    runTurn s text model (.events chunks .endOfStream) now ts =
      ⟨s.messages ++ [⟨toString now ++ "-user", .sent, text, ts⟩,
        ⟨toString now ++ "-assistant", .received, String.join cs, ts⟩], false, none⟩ := by
  unfold runTurn
  dsimp only
  rw [handleChatRequest_turn, bridgeResult_chunks_end]
  have ho : bridgeOutcome (.events chunks .endOfStream) = .done := by
    rw [bridgeOutcome, bridgeResult_chunks_end]
  rw [ho, hn]
  simp only [sendMessageWith, ResponseM.ok]
  have hpre : ∀ m ∈ s.messages ++
      [(⟨toString now ++ "-user", .sent, text, ts⟩ : ChatMessage)],
      ¬ m.id = toString now ++ "-assistant" := by
    intro m hm
    rcases List.mem_append.mp hm with hmem | hmem
    · exact hid m hmem
    · rcases List.mem_singleton.mp hmem with rfl
      exact userId_ne_assistantId now
  have hfold := fold_frags cs
    (s.messages ++ [⟨toString now ++ "-user", .sent, text, ts⟩])
    (toString now ++ "-assistant") "" ts hpre
  simp only [List.append_assoc, List.singleton_append] at hfold ⊢
  simp [hfold]

/-- Witness for C1: the end-to-end scenario of the spec, with one framed chunk,
one empty-payload chunk (ignored) and one raw chunk. -/
theorem streamed_content_concat_witness :
    runTurn ⟨[], false, none⟩ "2+2?" "claude-3-5-sonnet-latest"
        (.events [some "0:\"4\"\n", none, some "!"] .endOfStream) 0 "12:00" =
      ⟨[⟨toString 0 ++ "-user", .sent, "2+2?", "12:00"⟩,
        ⟨toString 0 ++ "-assistant", .received, String.join ["4", "!"], "12:00"⟩],
        false, none⟩ := by
  have h := streamed_content_concat ⟨[], false, none⟩ "2+2?" "claude-3-5-sonnet-latest" 0
    "12:00" [some "0:\"4\"\n", none, some "!"] ["4", "!"] (by decide) (by simp)
  simpa using h

theorem chatError_detail (m : String)
    (hp : jsonParse (respText (chatErrorResponse m)) =
      some (Json.objCons "error" (Json.str "Failed to process request")
        (Json.objCons "details" (Json.str m) Json.objNil)))
    (hm : ¬ m = "") :
    (chatErrorResponse m).status = 500 ∧
    ∃ d, jsonParse (respText (chatErrorResponse m)) = some d ∧
      ∃ v, jsGet d "details" = some v ∧ jsTruthy v = true := by
  refine ⟨rfl, _, hp, Json.str m, by simp [jsGet], by simp [jsTruthy, hm]⟩

theorem handleChatRequest_cases (body : Json) (host : HostBehavior) :
    handleChatRequestCore body host = chatErrorResponse destructureNullMessage ∨
    handleChatRequestCore body host = chatErrorResponse startsWithTypeMessage ∨
    handleChatRequestCore body host = chatErrorResponse nullMemberMessage ∨
    handleChatRequestCore body host =
      chatErrorResponse "Invalid request: messages array is required" ∨
    (handleChatRequestCore body host).ok = true := by
  unfold handleChatRequestCore
  repeat' first
    | exact Or.inl rfl
    | exact Or.inr (Or.inl rfl)
    | exact Or.inr (Or.inr (Or.inl rfl))
    | exact Or.inr (Or.inr (Or.inr (Or.inl rfl)))
    | exact Or.inr (Or.inr (Or.inr (Or.inr rfl)))
    | split
    | dsimp only

/-- C9: customTauriFetch always returns an ok status-200 response whose body
is the stream fed by the bridge (a later host rejection surfaces only
through that stream), so the only non-ok response the session can observe
from the open call is the 500 of handleChatRequest itself, whose JSON body carries
a truthy details field. -/
theorem ok_streaming_response (body : Json) (host : HostBehavior) :
    (customTauriFetchModel (some body) host).status = 200 ∧
    (customTauriFetchModel (some body) host).ok = true ∧
    (customTauriFetchModel (some body) host).body =
      RespBody.stream (bridgeResult host).frags (bridgeOutcome host) ∧
    ((handleChatRequestCore body host).ok = false →
      (handleChatRequestCore body host).status = 500 ∧
      ∃ d, jsonParse (respText (handleChatRequestCore body host)) = some d ∧
        ∃ v, jsGet d "details" = some v ∧ jsTruthy v = true) := by
  refine ⟨rfl, rfl, rfl, ?_⟩
  intro hok
  rcases handleChatRequest_cases body host with h | h | h | h | h
  · rw [h]; exact chatError_detail _ (by decide) (by decide)
  · rw [h]; exact chatError_detail _ (by decide) (by decide)
  · rw [h]; exact chatError_detail _ (by decide) (by decide)
  · rw [h]; exact chatError_detail _ (by decide) (by decide)
  · rw [h] at hok; cases hok

/-- Witness for C9: a request body with no messages field yields the 500
response with a details field. -/
theorem ok_streaming_response_witness :
    (handleChatRequestCore Json.objNil (HostBehavior.reject "x")).ok = false ∧
    ((handleChatRequestCore Json.objNil (HostBehavior.reject "x")).status = 500 ∧
      ∃ d, jsonParse (respText (handleChatRequestCore Json.objNil
          (HostBehavior.reject "x"))) = some d ∧
        ∃ v, jsGet d "details" = some v ∧ jsTruthy v = true) := by
  refine ⟨by decide, (ok_streaming_response Json.objNil (HostBehavior.reject "x")).2.2.2
    (by decide)⟩
